import Mathlib

/-!
Verification of the A4091 diagnostic utility (a4091.c) against its
natural-language specification.  The development shallowly embeds the
card-control and test-engine code: register values are natural numbers
reduced modulo 2^8 or 2^32 where the C code truncates, hardware reads
are supplied by explicit oracle functions, and stateful loops become
fuel-based recursions producing event traces.
-/

namespace A4091

/-! ## Register offsets and bit constants (from a4091.c defines) -/

def REG_SIEN : Nat := 0x00
def REG_SBCL : Nat := 0x08
def REG_SBDL : Nat := 0x09
def REG_SSTAT2 : Nat := 0x0c
def REG_SSTAT1 : Nat := 0x0d
def REG_SSTAT0 : Nat := 0x0e
def REG_DSTAT : Nat := 0x0f
def REG_CTEST2 : Nat := 0x15
def REG_CTEST6 : Nat := 0x19
def REG_CTEST7 : Nat := 0x18
def REG_CTEST4 : Nat := 0x1b
def REG_TEMP : Nat := 0x1c
def REG_ISTAT : Nat := 0x22
def REG_DSP : Nat := 0x2c
def REG_SCRATCH : Nat := 0x34
def REG_DCNTL : Nat := 0x38
def REG_DWT : Nat := 0x39
def REG_SCID : Nat := 0x07

def REG_ISTAT_DIP : Nat := 0x01
def REG_ISTAT_SIP : Nat := 0x02
def REG_ISTAT_RST : Nat := 0x40
def REG_ISTAT_ABRT : Nat := 0x80
def REG_DCNTL_EA : Nat := 0x20
def REG_SSTAT1_RST : Nat := 0x02

def A4091_OFFSET_AUTOCONFIG : Nat := 0x00000000

/-! ## C6: the autoconfig nibble reader get_creg -/

/-- Embedding of get_creg from a4091.c.  The memory oracle mem gives the
byte delivered by the bus at an absolute address; the C complement of a
uint8 is modelled as xor with 0xff after reduction mod 256. -/
def get_creg (mem : Nat → Nat) (a4091_base reg : Nat) : Nat :=
  let hi := (mem (a4091_base + A4091_OFFSET_AUTOCONFIG + reg) % 256) ^^^ 0xff
  let lo := (mem (a4091_base + A4091_OFFSET_AUTOCONFIG + reg + 0x100) % 256) ^^^ 0xff
  (hi &&& 0xf0) ||| (lo >>> 4)

/-- Specification-side formula for C6: the configuration byte is
((~hi & 0xF0) | (~lo >> 4)) with the complement acting on 8-bit values,
written with 8-bit complement as 255 minus the byte. -/
def creg_spec_formula (hi lo : Nat) : Nat :=
  ((255 - hi % 256) &&& 0xf0) ||| ((255 - lo % 256) >>> 4)

theorem xor_ff_eq_sub (y : Nat) (h : y < 256) : y ^^^ 0xff = 255 - y := by
  interval_cases y <;> rfl

/-- C6: for every autoconfig register offset r, get_creg reconstructs the
configuration byte as ((~hi & 0xF0) | (~lo >> 4)) where hi is the byte
read at the card base plus r and lo is the byte read at the card base
plus r + 0x100, the complement operating on 8-bit values. -/
theorem C6_get_creg_formula (mem : Nat → Nat) (base r : Nat) :
    get_creg mem base r =
      creg_spec_formula (mem (base + r)) (mem (base + r + 0x100)) := by
  unfold get_creg creg_spec_formula A4091_OFFSET_AUTOCONFIG
  rw [xor_ff_eq_sub _ (Nat.mod_lt _ (by norm_num)),
      xor_ff_eq_sub _ (Nat.mod_lt _ (by norm_num))]
  ring_nf

/-! ## C9: the SCSI pin test termination-power precheck -/

inductive PinPrecheck where
  | termPowerAbort
  | resetStuckAbort
  | proceed
deriving DecidableEq

/-- Embedding of the entry checks of test_scsi_pins from a4091.c: the
values read from SBDL, SBCL and SSTAT1 are parameters.  The code ORs
0x20 into the SBCL reading before the termination-power comparison. -/
def scsi_pins_precheck (sbdl sbcl sstat1 : Nat) : PinPrecheck :=
  let sbcl2 := sbcl ||| 0x20
  if sbcl2 = 0xff ∧ sbdl = 0xff then .termPowerAbort
  else if sstat1 &&& REG_SSTAT1_RST ≠ 0 then .resetStuckAbort
  else .proceed

/-- C9 counterexample: with SBDL reading 0xff and SBCL reading 0xdf the
test aborts with the termination-power diagnostic even though SBCL did
not read 0xff, refuting the claimed if-and-only-if. -/
theorem C9_counterexample :
    scsi_pins_precheck 0xff 0xdf 0 = .termPowerAbort ∧ (0xdf : Nat) ≠ 0xff := by
  constructor
  · rfl
  · decide

/-- C9 amended: the SCSI pin test aborts early with the termination-power
diagnostic if and only if SBDL reads 0xff and the SBCL reading ORed with
0x20 equals 0xff (so SBCL reads 0xff or 0xdf); for any other pair of read
values the test proceeds to the bus-reset check, whose outcome depends
only on the SSTAT1 reading. -/
theorem C9_termpower_abort_iff (sbdl sbcl sstat1 : Nat) :
    (scsi_pins_precheck sbdl sbcl sstat1 = .termPowerAbort ↔
      sbdl = 0xff ∧ (sbcl ||| 0x20) = 0xff) ∧
    (¬(sbdl = 0xff ∧ (sbcl ||| 0x20) = 0xff) →
      scsi_pins_precheck sbdl sbcl sstat1 =
        (if sstat1 &&& REG_SSTAT1_RST ≠ 0 then .resetStuckAbort else .proceed)) := by
  constructor
  · unfold scsi_pins_precheck
    by_cases h : sbcl ||| 0x20 = 0xff ∧ sbdl = 0xff
    · simp only [h, if_pos h]
      tauto
    · rw [if_neg h]
      constructor
      · intro hc
        by_cases h2 : sstat1 &&& REG_SSTAT1_RST ≠ 0 <;> simp [h2] at hc
      · intro hc
        exact absurd ⟨hc.2, hc.1⟩ h
  · intro h
    unfold scsi_pins_precheck
    rw [if_neg (fun hc => h ⟨hc.2, hc.1⟩)]

/-- C9 amended witness at a concrete input. -/
theorem C9_termpower_abort_iff_witness :
    scsi_pins_precheck 0xff 0xdf 0 = .termPowerAbort :=
  ((C9_termpower_abort_iff 0xff 0xdf 0).1).2 (by decide)

/-! ## C7: the DMA FIFO push/pop pseudo-random sequences -/

/-- Embedding of rand32 from a4091.c: one step of the linear congruential
generator on the 32-bit seed. -/
def rand_next (s : Nat) : Nat := (s * 25173 + 13849) % 2 ^ 32

/-- The generator state after n calls to rand32 starting from seed. -/
def rand_state (seed : Nat) : Nat → Nat
  | 0 => seed % 2 ^ 32
  | n + 1 => rand_next (rand_state seed n)

/-- The value returned by the k-th rand32 call (k counted from 0) after
srand32 seed: rand32 first advances the state, then returns it. -/
def rand32_out (seed k : Nat) : Nat := rand_state seed (k + 1)

/-- The FIFO test seed literal from a4091.c. -/
def fifo_seed : Nat := 19700119

/-- Push phase of test_dma_fifo: rvalue for the k-th pushed byte,
computed as the uint16 truncation of rand32() >> 8. -/
def fifo_push_rvalue (k : Nat) : Nat := (rand32_out fifo_seed k >>> 8) % 2 ^ 16

/-- The data byte written to CTEST6 for the k-th push (uint8 truncation). -/
def fifo_push_data (k : Nat) : Nat := fifo_push_rvalue k % 2 ^ 8

/-- The parity field ORed into the CTEST7 write for the k-th push:
bit 3 of CTEST7 carries bit 8 of rvalue, via (rvalue >> 5) & BIT(3). -/
def fifo_push_parity_field (k : Nat) : Nat := (fifo_push_rvalue k >>> 5) &&& 0x08

/-- The 9-bit value pushed at step k: the CTEST6 byte plus the parity
bit (CTEST7 bit 3) as bit 8. -/
def fifo_pushed9 (k : Nat) : Nat :=
  fifo_push_data k ||| ((fifo_push_parity_field k >>> 3) <<< 8)

/-- Pop phase of test_dma_fifo: the 9-bit expected value computed for the
k-th popped byte after re-seeding, (rand32() >> 8) & (BIT(9)-1). -/
def fifo_pop_expected (k : Nat) : Nat := (rand32_out fifo_seed k >>> 8) &&& 0x1ff

theorem nine_bit_recombine (v : Nat) :
    (v % 2 ^ 16) % 2 ^ 8 ||| (((v % 2 ^ 16) >>> 5 &&& 0x08) >>> 3) <<< 8 = v &&& 0x1ff := by
  apply Nat.eq_of_testBit_eq
  intro j
  have h8 : (0x08 : Nat) = 2 ^ 3 := by norm_num
  have h1ff : (0x1ff : Nat) = 2 ^ 9 - 1 := by norm_num
  simp only [h8, h1ff, Nat.testBit_or, Nat.testBit_shiftLeft, Nat.testBit_shiftRight,
    Nat.testBit_and, Nat.testBit_mod_two_pow, Nat.testBit_two_pow,
    Nat.testBit_two_pow_sub_one]
  rcases lt_trichotomy j 8 with hj | hj | hj
  · simp [hj, show j < 9 by omega, show j < 16 by omega, show ¬ 8 ≤ j by omega]
  · subst hj
    simp [show ¬ (8 : Nat) < 8 by omega, show (8 : Nat) ≤ 8 by omega,
      show (8 : Nat) < 16 by omega, show (8 : Nat) < 9 by omega]
  · by_cases hle : 8 ≤ j
    · simp only [show ¬ j < 8 by omega, show ¬ j < 9 by omega, hle, decide_eq_true_eq]
      simp
      omega
    · simp [show ¬ j < 8 by omega, show ¬ j < 9 by omega, hle]

/-- C7: with the generator re-seeded with 19700119 before the push loop
and before the pop loop, for every lane l in 0..3 and byte index i in
0..15 the 9-bit expected value computed during the pop phase equals the
9-bit value pushed during the push phase for the same step (k = 16*l + i),
so the expected pop sequence equals the pushed sequence lane by lane. -/
theorem C7_fifo_roundtrip (l i : Nat) (hl : l < 4) (hi : i < 16) :
    fifo_pop_expected (16 * l + i) = fifo_pushed9 (16 * l + i) := by
  unfold fifo_pop_expected fifo_pushed9 fifo_push_data fifo_push_parity_field
    fifo_push_rvalue
  exact (nine_bit_recombine (rand32_out fifo_seed (16 * l + i) >>> 8)).symm

/-- C7 witness: the round-trip equality at lane 2, byte 5, with the two
sides evaluated on the concrete pseudo-random sequence. -/
theorem C7_fifo_roundtrip_witness :
    2 < 4 ∧ 5 < 16 ∧ fifo_pop_expected (16 * 2 + 5) = fifo_pushed9 (16 * 2 + 5) :=
  ⟨by decide, by decide, C7_fifo_roundtrip 2 5 (by decide) (by decide)⟩

/-! ## C8: walking-bit coverage in the register-access test -/

/-- One left rotation of a 32-bit pattern, as computed by
next = (patt << 1) | (patt >> 31) on uint32 in test_register_access. -/
def rotl1 (p : Nat) : Nat := ((p <<< 1) ||| (p >>> 31)) % 2 ^ 32

/-- The walking-bit seed pattern from test_register_access. -/
def walk_seed : Nat := 0xf0e7c3a5

/-- The pattern used at rotation r: patt starts at the seed and is
replaced by its left rotation after every iteration. -/
def walk_patt : Nat → Nat
  | 0 => walk_seed
  | r + 1 => rotl1 (walk_patt r)

/-- The value written to SCRATCH at iteration r of the walking-bit loop. -/
def scratch_patt (r : Nat) : Nat := walk_patt r

/-- The value written to TEMP at iteration r: the left rotation of the
SCRATCH pattern. -/
def temp_patt (r : Nat) : Nat := walk_patt (r + 1)

theorem walk_cover_lt32 :
    ∀ b < 32, (∃ r < 32, (scratch_patt r).testBit b = true) ∧
      (∃ r < 32, (scratch_patt r).testBit b = false) ∧
      (∃ r < 32, (temp_patt r).testBit b = true) ∧
      (∃ r < 32, (temp_patt r).testBit b = false) := by
  decide

/-- C8: in the walking-bit test starting from seed 0xF0E7C3A5 with 256
left-rotations, every bit position b in 0..31 is driven both high and low
in the pattern written to SCRATCH and in the rotated pattern written to
TEMP at some iteration r in 0..255. -/
theorem C8_walking_bit_coverage (b : Nat) (hb : b < 32) :
    (∃ r < 256, (scratch_patt r).testBit b = true) ∧
    (∃ r < 256, (scratch_patt r).testBit b = false) ∧
    (∃ r < 256, (temp_patt r).testBit b = true) ∧
    (∃ r < 256, (temp_patt r).testBit b = false) := by
  obtain ⟨⟨r1, hr1, h1⟩, ⟨r2, hr2, h2⟩, ⟨r3, hr3, h3⟩, ⟨r4, hr4, h4⟩⟩ :=
    walk_cover_lt32 b hb
  exact ⟨⟨r1, by omega, h1⟩, ⟨r2, by omega, h2⟩, ⟨r3, by omega, h3⟩,
    ⟨r4, by omega, h4⟩⟩

/-- C8 witness: coverage of bit 0, applying the theorem at b = 0. -/
theorem C8_walking_bit_coverage_witness :
    0 < 32 ∧ ((∃ r < 256, (scratch_patt r).testBit 0 = true) ∧
      (∃ r < 256, (scratch_patt r).testBit 0 = false) ∧
      (∃ r < 256, (temp_patt r).testBit 0 = true) ∧
      (∃ r < 256, (temp_patt r).testBit 0 = false)) :=
  ⟨by decide, C8_walking_bit_coverage 0 (by decide)⟩

/-! ## The session state a4091_save_t and the local interrupt handler -/

/-- Embedding of the a4091_save_t session structure from a4091.c.
Interrupt-server handles are Option Nat (none models a NULL pointer). -/
structure a4091_save_t where
  addr : Nat := 0
  intcount : Nat := 0
  ireg_istat : Nat := 0
  ireg_sien : Nat := 0
  ireg_sstat0 : Nat := 0
  ireg_dstat : Nat := 0
  card_owned : Bool := false
  cleanup_installed : Bool := false
  driver_isr : Option Nat := none
  local_isr : Option Nat := none
  reg_istat : Nat := 0
deriving DecidableEq

/-- Embedding of a4091_irq_handler from a4091.c: regs is the register
file at the moment of the invocation; the result is the updated session
state and the handler return value (1 = handled, 0 = not handled).
The intcount field is a uint32 in the source, so the increment wraps
modulo 2^32 and the handled test compares the wrapped value with 1. -/
def a4091_irq_handler (regs : Nat → Nat) (save : a4091_save_t) : a4091_save_t × Nat :=
  if regs REG_ISTAT &&& (REG_ISTAT_DIP ||| REG_ISTAT_SIP) ≠ 0 then
    ({ save with
        ireg_istat := regs REG_ISTAT,
        ireg_sien := regs REG_SIEN,
        ireg_sstat0 := regs REG_SSTAT0,
        ireg_dstat := regs REG_DSTAT,
        intcount := (save.intcount + 1) % 2 ^ 32 },
     if (save.intcount + 1) % 2 ^ 32 = 1 then 1 else 0)
  else (save, 0)

/-! ## C4: idempotence of the cleanup/release path -/

inductive REv where
  | regWr (reg val : Nat)
  | regRd (reg : Nat)
  | addIntServer (h : Nat)
  | remIntServer (h : Nat)
  | freeMem (h : Nat)
deriving DecidableEq

/-- The register accesses performed by a4091_reset in a4091.c, in order. -/
def a4091_reset_events : List REv :=
  [.regWr REG_DCNTL REG_DCNTL_EA,
   .regWr REG_ISTAT REG_ISTAT_RST,
   .regRd REG_ISTAT,
   .regWr REG_ISTAT 0,
   .regRd REG_ISTAT,
   .regWr REG_SCID 0x80,
   .regWr REG_DCNTL REG_DCNTL_EA,
   .regWr REG_DWT 0xff]

/-- Embedding of a4091_enable_driver_irq_handler: reinstalls the saved
driver interrupt server only when one was displaced (non-NULL handle). -/
def a4091_enable_driver_irq_handler (s : a4091_save_t) : a4091_save_t × List REv :=
  match s.driver_isr with
  | some h => ({ s with driver_isr := none }, [.addIntServer h])
  | none => (s, [])

/-- Embedding of a4091_remove_local_irq_handler: removes and frees the
local interrupt server only when one is installed (non-NULL handle). -/
def a4091_remove_local_irq_handler (s : a4091_save_t) : a4091_save_t × List REv :=
  match s.local_isr with
  | some h => ({ s with local_isr := none }, [.remIntServer h, .freeMem h])
  | none => (s, [])

/-- Embedding of a4091_state_restore from a4091.c: when the card is
owned, clear the ownership flag, reset the SIOP, reinstall the saved
driver interrupt server and remove the local one; otherwise do nothing. -/
def a4091_state_restore (s : a4091_save_t) : a4091_save_t × List REv :=
  if s.card_owned then
    let s1 : a4091_save_t := { s with card_owned := false }
    let p2 := a4091_enable_driver_irq_handler s1
    let p3 := a4091_remove_local_irq_handler p2.1
    (p3.1, a4091_reset_events ++ p2.2 ++ p3.2)
  else (s, [])

/-- C4: the cleanup/release path is idempotent.  For every session state,
a second a4091_state_restore is a no-op (same state, no events) because
the ownership flag was cleared by the first call; when the card was never
seized, a4091_state_restore performs no register accesses and no
interrupt-server changes; and each undo step is guarded by its own
precondition (a NULL driver_isr or local_isr produces no action). -/
theorem C4_restore_idempotent (s : a4091_save_t) :
    (a4091_state_restore (a4091_state_restore s).1 = ((a4091_state_restore s).1, [])) ∧
    (s.card_owned = false → a4091_state_restore s = (s, [])) ∧
    (s.driver_isr = none →
      a4091_enable_driver_irq_handler s = (s, [])) ∧
    (s.local_isr = none →
      a4091_remove_local_irq_handler s = (s, [])) := by
  refine ⟨?_, ?_, ?_, ?_⟩
  · by_cases h : s.card_owned
    · rcases hd : s.driver_isr with _ | d <;> rcases hl : s.local_isr with _ | l <;>
        simp [a4091_state_restore, a4091_enable_driver_irq_handler,
          a4091_remove_local_irq_handler, h, hd, hl]
    · simp [a4091_state_restore, h]
  · intro h
    simp [a4091_state_restore, h]
  · intro h
    simp [a4091_enable_driver_irq_handler, h]
  · intro h
    simp [a4091_remove_local_irq_handler, h]

/-- C4 witness: the never-seized no-op conjunct applied at a concrete
session state. -/
theorem C4_restore_idempotent_witness :
    a4091_state_restore { card_owned := false, driver_isr := some 5 } =
      ({ card_owned := false, driver_isr := some 5 }, []) :=
  (C4_restore_idempotent _).2.1 rfl

/-! ## C3: handler return discipline over invocation traces -/

inductive HEvent where
  | inv (istat sien sstat0 dstat : Nat)
  | clearSnap
deriving DecidableEq

/-- Register-file view presented to the handler for one invocation. -/
def hregs (istat sien sstat0 dstat : Nat) : Nat → Nat := fun reg =>
  if reg = REG_ISTAT then istat
  else if reg = REG_SIEN then sien
  else if reg = REG_SSTAT0 then sstat0
  else if reg = REG_DSTAT then dstat
  else 0

/-- Run of the code over a trace: each inv event invokes
a4091_irq_handler on the given register values; each clearSnap event is
the main line clearing the captured ISTAT snapshot (as execute_script
does on entry).  Returns the final state and the handler return values. -/
def runHandlerTrace : a4091_save_t → List HEvent → a4091_save_t × List Nat
  | save, [] => (save, [])
  | save, .clearSnap :: rest => runHandlerTrace { save with ireg_istat := 0 } rest
  | save, .inv i sn s0 d :: rest =>
    let p := a4091_irq_handler (hregs i sn s0 d) save
    let q := runHandlerTrace p.1 rest
    (q.1, p.2 :: q.2)

/-- The return values the claim predicts: handled exactly once per
expected interrupt, re-armed each time the main line clears the captured
ISTAT snapshot. -/
def claimedReturns : Bool → List HEvent → List Nat
  | _, [] => []
  | _, .clearSnap :: rest => claimedReturns true rest
  | armed, .inv i _ _ _ :: rest =>
    if i &&& (REG_ISTAT_DIP ||| REG_ISTAT_SIP) ≠ 0 then
      (if armed then 1 else 0) :: claimedReturns false rest
    else 0 :: claimedReturns armed rest

/-- The return values the code actually produces, parametrized by the
number n of qualifying invocations already seen since handler
installation: a qualifying invocation is reported handled exactly when
n is congruent to 0 modulo 2^32 (intcount is a uint32 that wraps and is
reset only by a4091_add_local_irq_handler); snapshot clears are
irrelevant. -/
def installReturns : Nat → List HEvent → List Nat
  | _, [] => []
  | n, .clearSnap :: rest => installReturns n rest
  | n, .inv i _ _ _ :: rest =>
    if i &&& (REG_ISTAT_DIP ||| REG_ISTAT_SIP) ≠ 0 then
      (if n % 2 ^ 32 = 0 then 1 else 0) :: installReturns (n + 1) rest
    else 0 :: installReturns n rest

/-- Number of qualifying invocations (DIP or SIP set) in a trace. -/
def countQual : List HEvent → Nat
  | [] => 0
  | .clearSnap :: rest => countQual rest
  | .inv i _ _ _ :: rest =>
    (if i &&& (REG_ISTAT_DIP ||| REG_ISTAT_SIP) ≠ 0 then 1 else 0) + countQual rest

/-- The four snapshot bytes the claim says the handler maintains:
each qualifying invocation captures (istat, sien, sstat0, dstat), and a
main-line clear zeroes the captured ISTAT byte. -/
def snapSpec : Nat × Nat × Nat × Nat → List HEvent → Nat × Nat × Nat × Nat
  | cur, [] => cur
  | cur, .clearSnap :: rest => snapSpec (0, cur.2) rest
  | cur, .inv i sn s0 d :: rest =>
    if i &&& (REG_ISTAT_DIP ||| REG_ISTAT_SIP) ≠ 0 then snapSpec (i, sn, s0, d) rest
    else snapSpec cur rest

/-- The four snapshot bytes of a session state. -/
def snapFields (s : a4091_save_t) : Nat × Nat × Nat × Nat :=
  (s.ireg_istat, s.ireg_sien, s.ireg_sstat0, s.ireg_dstat)

theorem runHandlerTrace_spec (trace : List HEvent) :
    ∀ (save : a4091_save_t) (n : Nat), save.intcount = n % 2 ^ 32 →
    (runHandlerTrace save trace).2 = installReturns n trace ∧
    (runHandlerTrace save trace).1.intcount = (n + countQual trace) % 2 ^ 32 ∧
    snapFields (runHandlerTrace save trace).1 = snapSpec (snapFields save) trace := by
  induction trace with
  | nil =>
    intro save n h0
    simp [runHandlerTrace, installReturns, countQual, snapSpec, h0]
  | cons e rest ih =>
    intro save n h0
    cases e with
    | clearSnap =>
      have h := ih { save with ireg_istat := 0 } n h0
      simpa [runHandlerTrace, installReturns, countQual, snapSpec, snapFields] using h
    | inv i sn s0 d =>
      by_cases hq : i &&& (REG_ISTAT_DIP ||| REG_ISTAT_SIP) ≠ 0
      · have h := ih { save with
          ireg_istat := hregs i sn s0 d REG_ISTAT,
          ireg_sien := hregs i sn s0 d REG_SIEN,
          ireg_sstat0 := hregs i sn s0 d REG_SSTAT0,
          ireg_dstat := hregs i sn s0 d REG_DSTAT,
          intcount := (save.intcount + 1) % 2 ^ 32 } (n + 1)
          (by
            show (save.intcount + 1) % 2 ^ 32 = (n + 1) % 2 ^ 32
            rw [h0]
            omega)
        simp only [runHandlerTrace, a4091_irq_handler] at *
        rw [if_pos (by simpa [hregs] using hq)]
        simp only [installReturns, countQual, snapSpec, if_pos hq]
        refine ⟨?_, ?_, ?_⟩
        · rw [h.1]
          have hcond : (save.intcount + 1) % 2 ^ 32 = 1 ↔ n % 2 ^ 32 = 0 := by
            rw [h0]
            omega
          by_cases hz : n % 2 ^ 32 = 0
          · rw [if_pos (hcond.mpr hz), if_pos hz]
          · rw [if_neg (fun hh => hz (hcond.mp hh)), if_neg hz]
        · rw [h.2.1]; omega
        · rw [h.2.2]
          simp [snapFields, hregs, REG_ISTAT, REG_SIEN, REG_SSTAT0, REG_DSTAT]
      · have h := ih save n h0
        simp only [runHandlerTrace, a4091_irq_handler] at *
        rw [if_neg (by simpa [hregs] using hq)]
        simp only [installReturns, countQual, snapSpec, if_neg hq]
        exact ⟨by rw [h.1], by rw [h.2.1]; omega, h.2.2⟩

/-- C3 counterexample: starting from a freshly installed handler
(intcount = 0), a qualifying interrupt is handled (1); after the main
line clears the captured snapshot, marking a new expected interrupt, the
next qualifying interrupt is NOT handled (0), while the claim predicts
it would be handled again. -/
theorem C3_counterexample :
    (runHandlerTrace { intcount := 0 }
      [HEvent.inv 1 0 0 0, HEvent.clearSnap, HEvent.inv 1 0 0 0]).2 = [1, 0] ∧
    claimedReturns true
      [HEvent.inv 1 0 0 0, HEvent.clearSnap, HEvent.inv 1 0 0 0] = [1, 1] := by
  constructor <;> decide

/-- C3 amended: for every invocation trace starting from a freshly
installed handler (intcount = 0), every qualifying invocation (DIP or
SIP set in ISTAT) captures the four snapshot bytes and increments the
uint32 interrupt count (wrapping at 2^32), and the handler returns
handled (1) exactly on the qualifying invocations preceded by a
multiple of 2^32 qualifying invocations since installation - on the
first one, and then again only after the interrupt count wraps;
clearing the captured ISTAT snapshot never re-arms it, and every other
invocation returns not handled (0). -/
theorem C3_handler_returns (save : a4091_save_t) (trace : List HEvent)
    (h0 : save.intcount = 0) :
    (runHandlerTrace save trace).2 = installReturns 0 trace ∧
    (runHandlerTrace save trace).1.intcount = countQual trace % 2 ^ 32 ∧
    snapFields (runHandlerTrace save trace).1 = snapSpec (snapFields save) trace := by
  have h := runHandlerTrace_spec trace save 0 (by rw [h0]; omega)
  exact ⟨h.1, by rw [h.2.1]; omega, h.2.2⟩

/-- C3 amended witness: the counterexample trace evaluated through the
amended theorem. -/
theorem C3_handler_returns_witness :
    (runHandlerTrace { intcount := 0 }
      [HEvent.inv 1 0 0 0, HEvent.clearSnap, HEvent.inv 1 0 0 0]).2 =
      installReturns 0 [HEvent.inv 1 0 0 0, HEvent.clearSnap, HEvent.inv 1 0 0 0] :=
  (C3_handler_returns { intcount := 0 } _ rfl).1

/-! ## C2: the soft-reset sequence in a4091_state_takeover -/

inductive Ev where
  | rd (reg val : Nat)
  | wr (reg val : Nat)
  | diag
deriving DecidableEq

/-- Oracle for the takeover reset path: rd n is the value delivered by
the n-th ISTAT read inside a4091_state_takeover, tmo n the result of the
n-th 2-tick ISTAT_RST access_timeout check. -/
structure ResetEnv where
  rd : Nat → Nat
  tmo : Nat → Bool

/-- The wait loop of a4091_state_takeover: read ISTAT until the RST bit
reads as set, breaking out early when the 2-tick timeout elapses.
Returns the read events, whether the timeout fired, and the next read
oracle index. -/
def rst_wait (env : ResetEnv) : Nat → Nat → Nat → List Ev × Bool × Nat
  | _, _, 0 => ([], false, 0)
  | rdIdx, tmoIdx, fuel + 1 =>
    let v := env.rd rdIdx % 256
    if v &&& REG_ISTAT_RST ≠ 0 then ([Ev.rd REG_ISTAT v], false, rdIdx + 1)
    else if env.tmo tmoIdx then ([Ev.rd REG_ISTAT v], true, rdIdx + 1)
    else
      let r := rst_wait env (rdIdx + 1) (tmoIdx + 1) fuel
      (Ev.rd REG_ISTAT v :: r.1, r.2.1, r.2.2)

/-- Embedding of the soft-reset portion of a4091_state_takeover from
a4091.c: save ISTAT as reg_istat, write it back with RST set, read back
to flush, write it with RST clear, write it with RST set again, wait for
RST to read as set (2-tick timeout), then write reg_istat with RST
cleared.  Returns the event trace and whether the wait timed out. -/
def takeover_soft_reset (env : ResetEnv) (fuel : Nat) : List Ev × Bool :=
  let x := env.rd 0 % 256
  let w := rst_wait env 2 0 fuel
  (Ev.rd REG_ISTAT x ::
   Ev.wr REG_ISTAT (x ||| REG_ISTAT_RST) ::
   Ev.rd REG_ISTAT (env.rd 1 % 256) ::
   Ev.wr REG_ISTAT x ::
   Ev.wr REG_ISTAT (x ||| REG_ISTAT_RST) ::
   (w.1 ++ [Ev.wr REG_ISTAT (x &&& 0xbf)]), w.2.1)

/-- True when the event list contains an ISTAT read with RST set that is
followed, later in the list, by an ISTAT read with RST clear. -/
def setThenClear : List Ev → Bool → Bool
  | [], _ => false
  | Ev.rd r v :: rest, seen =>
    if r = REG_ISTAT then
      if seen ∧ v &&& REG_ISTAT_RST = 0 then true
      else setThenClear rest (seen || decide (v &&& REG_ISTAT_RST ≠ 0))
    else setThenClear rest seen
  | _ :: rest, seen => setThenClear rest seen

/-- Formalization of claim C2 as stated: the soft reset writes RST set,
reads back, clears RST, and then, unless the 2-tick timeout elapsed,
the RST bit of ISTAT is read as set and subsequently observed clear before
the takeover returns. -/
def C2_claim_prop (env : ResetEnv) (fuel : Nat) : Prop :=
  let t := takeover_soft_reset env fuel
  let x := env.rd 0 % 256
  (∃ pre post, t.1 = pre ++ Ev.wr REG_ISTAT (x ||| REG_ISTAT_RST) :: post) ∧
  (t.2 = true ∨ setThenClear t.1 false = true)

/-- C2 counterexample: with an oracle on which every ISTAT read returns
0x40 (RST set) and the timeout never fires, the wait loop exits on its
first read and the function returns after writing RST clear without ever
observing RST clear, refuting the claim for this invocation. -/
theorem C2_counterexample :
    ¬ C2_claim_prop ⟨fun _ => 0x40, fun _ => false⟩ 4 := by
  intro h
  rcases h.2 with h2 | h2
  · exact absurd h2 (by decide)
  · exact absurd h2 (by decide)

theorem rst_wait_shape (env : ResetEnv) : ∀ fuel rdIdx tmoIdx,
    (∀ e ∈ (rst_wait env rdIdx tmoIdx fuel).1, ∃ v, e = Ev.rd REG_ISTAT v) ∧
    (∀ a v b, (rst_wait env rdIdx tmoIdx fuel).1 = a ++ Ev.rd REG_ISTAT v :: b →
      v &&& REG_ISTAT_RST ≠ 0 → b = []) := by
  intro fuel
  induction fuel with
  | zero =>
    intro rdIdx tmoIdx
    constructor
    · intro e he; simp [rst_wait] at he
    · intro a v b hab
      simp only [rst_wait] at hab
      rcases a with _ | ⟨x, a⟩ <;> simp at hab
  | succ fuel ih =>
    intro rdIdx tmoIdx
    by_cases h1 : env.rd rdIdx % 256 &&& REG_ISTAT_RST ≠ 0
    · constructor
      · intro e he
        simp only [rst_wait, if_pos h1] at he
        simp at he
        exact ⟨_, he⟩
      · intro a v b hab _
        simp only [rst_wait, if_pos h1] at hab
        rcases a with _ | ⟨x, a⟩
        · simp only [List.nil_append, List.cons.injEq] at hab
          exact hab.2.symm
        · simp only [List.cons_append, List.cons.injEq] at hab
          rcases a with _ | ⟨y, a⟩ <;> simp at hab
    · by_cases h2 : env.tmo tmoIdx
      · constructor
        · intro e he
          simp only [rst_wait, if_neg h1, if_pos h2] at he
          simp at he
          exact ⟨_, he⟩
        · intro a v b hab _
          simp only [rst_wait, if_neg h1, if_pos h2] at hab
          rcases a with _ | ⟨x, a⟩
          · simp only [List.nil_append, List.cons.injEq] at hab
            exact hab.2.symm
          · simp only [List.cons_append, List.cons.injEq] at hab
            rcases a with _ | ⟨y, a⟩ <;> simp at hab
      · constructor
        · intro e he
          simp only [rst_wait, if_neg h1, if_pos h2, if_neg h2] at he
          simp at he
          rcases he with he | he
          · exact ⟨_, he⟩
          · exact (ih (rdIdx + 1) (tmoIdx + 1)).1 e he
        · intro a v b hab hv
          simp only [rst_wait, if_neg h1, if_neg h2] at hab
          rcases a with _ | ⟨x, a⟩
          · simp at hab
            rw [← hab.1] at hv
            exact absurd hv h1
          · simp at hab
            exact (ih (rdIdx + 1) (tmoIdx + 1)).2 a v b hab.2 hv

/-- C2 amended: the soft reset in a4091_state_takeover writes ISTAT with
RST set, reads it back to flush, writes it with RST clear, re-asserts
RST, then waits (reading ISTAT, all reads, with the 2-tick timeout)
until RST reads as set; once a wait read observes RST set the wait ends
immediately, and the function then clears RST with one final write and
returns without reading ISTAT again, so RST is never observed clear
after being observed set. -/
theorem C2_soft_reset_trace (env : ResetEnv) (fuel : Nat) :
    (takeover_soft_reset env fuel).1 =
      Ev.rd REG_ISTAT (env.rd 0 % 256) ::
      Ev.wr REG_ISTAT ((env.rd 0 % 256) ||| REG_ISTAT_RST) ::
      Ev.rd REG_ISTAT (env.rd 1 % 256) ::
      Ev.wr REG_ISTAT (env.rd 0 % 256) ::
      Ev.wr REG_ISTAT ((env.rd 0 % 256) ||| REG_ISTAT_RST) ::
      ((rst_wait env 2 0 fuel).1 ++
        [Ev.wr REG_ISTAT ((env.rd 0 % 256) &&& 0xbf)]) ∧
    (∀ e ∈ (rst_wait env 2 0 fuel).1, ∃ v, e = Ev.rd REG_ISTAT v) ∧
    (∀ a v b, (rst_wait env 2 0 fuel).1 = a ++ Ev.rd REG_ISTAT v :: b →
      v &&& REG_ISTAT_RST ≠ 0 → b = []) := by
  refine ⟨rfl, ?_, ?_⟩
  · exact (rst_wait_shape env fuel 2 0).1
  · exact (rst_wait_shape env fuel 2 0).2

/-- C2 amended witness: the trace shape at the counterexample oracle. -/
theorem C2_soft_reset_trace_witness :
    (takeover_soft_reset ⟨fun _ => 0x40, fun _ => false⟩ 4).1 =
      Ev.rd REG_ISTAT 0x40 ::
      Ev.wr REG_ISTAT (0x40 ||| REG_ISTAT_RST) ::
      Ev.rd REG_ISTAT 0x40 ::
      Ev.wr REG_ISTAT 0x40 ::
      Ev.wr REG_ISTAT (0x40 ||| REG_ISTAT_RST) ::
      ((rst_wait ⟨fun _ => 0x40, fun _ => false⟩ 2 0 4).1 ++
        [Ev.wr REG_ISTAT (0x40 &&& 0xbf)]) :=
  (C2_soft_reset_trace ⟨fun _ => 0x40, fun _ => false⟩ 4).1

/-! ## C1: execute_script completion wait -/

/-- Oracle for one execute_script run: hw i r is the value a read of
register r delivers during iteration i of the wait loop; irq i tells
whether the local interrupt handler runs just before the checks of
iteration i; tmo i is the result of the 30-tick access_timeout check at
iteration i. -/
structure ScriptEnv where
  hw : Nat → Nat → Nat
  irq : Nat → Bool
  tmo : Nat → Bool

/-- The register reads a4091_irq_handler performs on one invocation:
ISTAT always; SIEN, SSTAT0 and DSTAT when DIP or SIP is set. -/
def irq_handler_events (regs : Nat → Nat) : List Ev :=
  let istat := regs REG_ISTAT
  if istat &&& (REG_ISTAT_DIP ||| REG_ISTAT_SIP) ≠ 0 then
    [Ev.rd REG_ISTAT istat, Ev.rd REG_SIEN (regs REG_SIEN),
     Ev.rd REG_SSTAT0 (regs REG_SSTAT0), Ev.rd REG_DSTAT (regs REG_DSTAT)]
  else [Ev.rd REG_ISTAT istat]

/-- Embedding of the wait loop of execute_script from a4091.c.  Each
iteration: the interrupt handler may run; every 8th iteration ISTAT is
polled directly and, on ABRT or DIP, DSTAT is drained and 0 returned;
the captured snapshot byte is checked every iteration, breaking on ABRT
or DIP; every 32nd iteration the 30-tick deadline is consulted and, if
exceeded, a diagnostic showing ISTAT/DSTAT/SSTAT0-2 is printed and 1
returned.  Fuel bounds the unrolling; none models a still-running loop. -/
def script_loop (env : ScriptEnv) : Nat → a4091_save_t → Nat →
    Option Nat × a4091_save_t × List Ev
  | 0, save, _ => (none, save, [])
  | fuel + 1, save, count =>
    let save1 := if env.irq count then (a4091_irq_handler (env.hw count) save).1 else save
    let evs1 := if env.irq count then irq_handler_events (env.hw count) else []
    let pollEvs := if count &&& 7 = 0 then [Ev.rd REG_ISTAT (env.hw count REG_ISTAT)] else []
    if count &&& 7 = 0 ∧ env.hw count REG_ISTAT &&& (REG_ISTAT_ABRT ||| REG_ISTAT_DIP) ≠ 0 then
      (some 0, save1, evs1 ++ pollEvs ++ [Ev.rd REG_DSTAT (env.hw count REG_DSTAT)])
    else if save1.ireg_istat &&& (REG_ISTAT_ABRT ||| REG_ISTAT_DIP) ≠ 0 then
      (some 0, save1, evs1 ++ pollEvs)
    else if count &&& 31 = 0 ∧ env.tmo count then
      (some 1, save1, evs1 ++ pollEvs ++
        [Ev.diag, Ev.rd REG_ISTAT (env.hw count REG_ISTAT),
         Ev.rd REG_DSTAT (env.hw count REG_DSTAT),
         Ev.rd REG_SSTAT0 (env.hw count REG_SSTAT0),
         Ev.rd REG_SSTAT1 (env.hw count REG_SSTAT1),
         Ev.rd REG_SSTAT2 (env.hw count REG_SSTAT2)])
    else
      let r := script_loop env fuel save1 (count + 1)
      (r.1, r.2.1, evs1 ++ pollEvs ++ r.2.2)

/-- Embedding of execute_script from a4091.c: clear the captured ISTAT
snapshot, write the script address to the DSP register (the SIOP
auto-starts), then run the wait loop. -/
def execute_script (env : ScriptEnv) (script : Nat) (save : a4091_save_t)
    (fuel : Nat) : Option Nat × a4091_save_t × List Ev :=
  let r := script_loop env fuel { save with ireg_istat := 0 } 0
  (r.1, r.2.1, Ev.wr REG_DSP script :: r.2.2)

/-- A qualifying interrupt at iteration i: the handler runs and sees DIP
or SIP set, so it captures a new snapshot. -/
def snapQual (env : ScriptEnv) (i : Nat) : Prop :=
  env.irq i = true ∧ env.hw i REG_ISTAT &&& (REG_ISTAT_DIP ||| REG_ISTAT_SIP) ≠ 0

instance (env : ScriptEnv) (i : Nat) : Decidable (snapQual env i) := by
  unfold snapQual; infer_instance

/-- The captured ISTAT snapshot visible at iteration i of the wait loop,
characterized independently of the loop: the ISTAT value of the latest
qualifying interrupt at or before i, else 0 (it was cleared on entry). -/
def snapAt (env : ScriptEnv) : Nat → Nat
  | 0 => if snapQual env 0 then env.hw 0 REG_ISTAT else 0
  | i + 1 => if snapQual env (i + 1) then env.hw (i + 1) REG_ISTAT else snapAt env i

/-- The snapshot value on entry to iteration count, before the
interrupt of iteration count itself. -/
def snapBefore (env : ScriptEnv) (count : Nat) : Nat :=
  if count = 0 then 0 else snapAt env (count - 1)

/-- Completion observed by the direct ISTAT poll at iteration i. -/
def pollSuccess (env : ScriptEnv) (i : Nat) : Prop :=
  i &&& 7 = 0 ∧ env.hw i REG_ISTAT &&& (REG_ISTAT_ABRT ||| REG_ISTAT_DIP) ≠ 0

/-- Completion observed in the captured snapshot at iteration i. -/
def snapSuccess (env : ScriptEnv) (i : Nat) : Prop :=
  snapAt env i &&& (REG_ISTAT_ABRT ||| REG_ISTAT_DIP) ≠ 0

/-- A completion indication is observed at iteration i. -/
def successAt (env : ScriptEnv) (i : Nat) : Prop :=
  pollSuccess env i ∨ snapSuccess env i

/-- The 30-tick deadline check fires at iteration i. -/
def timeoutAt (env : ScriptEnv) (i : Nat) : Prop :=
  i &&& 31 = 0 ∧ env.tmo i = true

/-- The loop leaves iteration i by some exit. -/
def exitAt (env : ScriptEnv) (i : Nat) : Prop :=
  successAt env i ∨ timeoutAt env i

instance (env : ScriptEnv) (i : Nat) : Decidable (successAt env i) := by
  unfold successAt pollSuccess snapSuccess; infer_instance

instance (env : ScriptEnv) (i : Nat) : Decidable (exitAt env i) := by
  unfold exitAt timeoutAt; infer_instance

theorem exists_exit_shift (env : ScriptEnv) (P : Nat → Prop)
    (hP : ∀ i, P i → exitAt env i) (count fuel : Nat) (hne : ¬ exitAt env count) :
    (∃ i, count ≤ i ∧ i < count + (fuel + 1) ∧ P i ∧
      ∀ j, count ≤ j → j < i → ¬ exitAt env j) ↔
    (∃ i, count + 1 ≤ i ∧ i < count + 1 + fuel ∧ P i ∧
      ∀ j, count + 1 ≤ j → j < i → ¬ exitAt env j) := by
  constructor
  · rintro ⟨i, h1, h2, hp, hno⟩
    rcases Nat.eq_or_lt_of_le h1 with rfl | hgt
    · exact absurd (hP _ hp) hne
    · exact ⟨i, hgt, by omega, hp, fun j hj1 hj2 => hno j (by omega) hj2⟩
  · rintro ⟨i, h1, h2, hp, hno⟩
    refine ⟨i, by omega, by omega, hp, fun j hj1 hj2 => ?_⟩
    rcases Nat.eq_or_lt_of_le hj1 with rfl | hgt
    · exact hne
    · exact hno j (by omega) hj2

theorem exists_exit_head (env : ScriptEnv) (P : Nat → Prop) (count fuel : Nat)
    (hp : P count) :
    ∃ i, count ≤ i ∧ i < count + (fuel + 1) ∧ P i ∧
      ∀ j, count ≤ j → j < i → ¬ exitAt env j :=
  ⟨count, Nat.le_refl _, by omega, hp, fun j hj1 hj2 => absurd hj1 (by omega)⟩

theorem not_exists_exit_head (env : ScriptEnv) (P : Nat → Prop) (count fuel : Nat)
    (hex : exitAt env count) (hnp : ¬ P count) :
    ¬ ∃ i, count ≤ i ∧ i < count + fuel ∧ P i ∧
      ∀ j, count ≤ j → j < i → ¬ exitAt env j := by
  rintro ⟨i, h1, h2, hp, hno⟩
  rcases Nat.eq_or_lt_of_le h1 with rfl | hgt
  · exact hnp hp
  · exact hno count (Nat.le_refl _) hgt hex

theorem snapAt_eq (env : ScriptEnv) (count : Nat) :
    snapAt env count =
      if snapQual env count then env.hw count REG_ISTAT else snapBefore env count := by
  cases count with
  | zero => simp [snapAt, snapBefore]
  | succ c => simp [snapAt, snapBefore]

theorem script_loop_save1_istat (env : ScriptEnv) (count : Nat) (save : a4091_save_t)
    (hpre : save.ireg_istat = snapBefore env count) :
    (if env.irq count then (a4091_irq_handler (env.hw count) save).1
      else save).ireg_istat = snapAt env count := by
  rw [snapAt_eq]
  by_cases hi : env.irq count
  · rw [if_pos hi]
    unfold a4091_irq_handler
    by_cases hq : env.hw count REG_ISTAT &&& (REG_ISTAT_DIP ||| REG_ISTAT_SIP) ≠ 0
    · rw [if_pos hq, if_pos (show snapQual env count from ⟨hi, hq⟩)]
    · rw [if_neg hq, if_neg (fun hh : snapQual env count => hq hh.2)]
      exact hpre
  · rw [if_neg hi, if_neg (fun hh : snapQual env count => hi hh.1)]
    exact hpre

theorem script_loop_characterization (env : ScriptEnv) : ∀ fuel count save,
    save.ireg_istat = snapBefore env count →
    ((script_loop env fuel save count).1 = some 0 ↔
      ∃ i, count ≤ i ∧ i < count + fuel ∧ successAt env i ∧
        ∀ j, count ≤ j → j < i → ¬ exitAt env j) ∧
    ((script_loop env fuel save count).1 = some 1 ↔
      ∃ i, count ≤ i ∧ i < count + fuel ∧ (timeoutAt env i ∧ ¬ successAt env i) ∧
        ∀ j, count ≤ j → j < i → ¬ exitAt env j) := by
  intro fuel
  induction fuel with
  | zero =>
    intro count save _
    constructor
    · simp only [script_loop]
      constructor
      · intro h; exact absurd h (by simp)
      · rintro ⟨i, h1, h2, _⟩; omega
    · simp only [script_loop]
      constructor
      · intro h; exact absurd h (by simp)
      · rintro ⟨i, h1, h2, _⟩; omega
  | succ fuel ih =>
    intro count save hpre
    have hsave1 := script_loop_save1_istat env count save hpre
    by_cases h1 : count &&& 7 = 0 ∧ env.hw count REG_ISTAT &&& (REG_ISTAT_ABRT ||| REG_ISTAT_DIP) ≠ 0
    · have hsucc : successAt env count := Or.inl h1
      constructor
      · simp only [script_loop, if_pos h1]
        constructor
        · intro _; exact exists_exit_head env _ count fuel hsucc
        · intro _; trivial
      · simp only [script_loop, if_pos h1]
        constructor
        · intro h; exact absurd h (by simp)
        · intro h
          exact absurd h (not_exists_exit_head env _ count (fuel + 1)
            (Or.inl hsucc) (fun hc => hc.2 hsucc))
    · by_cases h2 : snapAt env count &&& (REG_ISTAT_ABRT ||| REG_ISTAT_DIP) ≠ 0
      · have hsucc : successAt env count := Or.inr h2
        constructor
        · simp only [script_loop, if_neg h1, hsave1, if_pos h2]
          constructor
          · intro _; exact exists_exit_head env _ count fuel hsucc
          · intro _; trivial
        · simp only [script_loop, if_neg h1, hsave1, if_pos h2]
          constructor
          · intro h; exact absurd h (by simp)
          · intro h
            exact absurd h (not_exists_exit_head env _ count (fuel + 1)
              (Or.inl hsucc) (fun hc => hc.2 hsucc))
      · by_cases h3 : count &&& 31 = 0 ∧ env.tmo count = true
        · have hnsucc : ¬ successAt env count := by
            rintro (hs | hs)
            · exact h1 hs
            · exact h2 hs
          constructor
          · simp only [script_loop, if_neg h1, hsave1, if_neg h2, if_pos h3]
            constructor
            · intro h; exact absurd h (by simp)
            · intro h
              exact absurd h (not_exists_exit_head env _ count (fuel + 1)
                (Or.inr h3) hnsucc)
          · simp only [script_loop, if_neg h1, hsave1, if_neg h2, if_pos h3]
            constructor
            · intro _; exact exists_exit_head env _ count fuel ⟨h3, hnsucc⟩
            · intro _; trivial
        · have hnex : ¬ exitAt env count := by
            rintro ((hs | hs) | hs)
            · exact h1 hs
            · exact h2 hs
            · exact h3 hs
          have hrec := ih (count + 1) (if env.irq count then
            (a4091_irq_handler (env.hw count) save).1 else save)
            (by rw [hsave1]; simp [snapBefore])
          constructor
          · simp only [script_loop, if_neg h1, hsave1, if_neg h2, if_neg h3]
            rw [hrec.1]
            exact (exists_exit_shift env _ (fun i hi => Or.inl hi) count fuel hnex).symm
          · simp only [script_loop, if_neg h1, hsave1, if_neg h2, if_neg h3]
            rw [hrec.2]
            exact (exists_exit_shift env _ (fun i hi => Or.inr hi.1) count fuel hnex).symm

theorem script_loop_drain (env : ScriptEnv) : ∀ fuel count save,
    (script_loop env fuel save count).1 = some 0 →
    (∃ v, Ev.rd REG_DSTAT v ∈ (script_loop env fuel save count).2.2) ∨
    save.ireg_istat &&& (REG_ISTAT_ABRT ||| REG_ISTAT_DIP) ≠ 0 := by
  intro fuel
  induction fuel with
  | zero =>
    intro count save h
    simp [script_loop] at h
  | succ fuel ih =>
    intro count save h
    by_cases h1 : count &&& 7 = 0 ∧ env.hw count REG_ISTAT &&& (REG_ISTAT_ABRT ||| REG_ISTAT_DIP) ≠ 0
    · left
      refine ⟨env.hw count REG_DSTAT, ?_⟩
      simp only [script_loop, if_pos h1]
      simp [List.mem_append]
    · by_cases h2 : (if env.irq count then (a4091_irq_handler (env.hw count) save).1
          else save).ireg_istat &&& (REG_ISTAT_ABRT ||| REG_ISTAT_DIP) ≠ 0
      · by_cases hiq : env.irq count = true ∧
            env.hw count REG_ISTAT &&& (REG_ISTAT_DIP ||| REG_ISTAT_SIP) ≠ 0
        · left
          refine ⟨env.hw count REG_DSTAT, ?_⟩
          simp only [script_loop, if_neg h1, if_pos h2]
          simp only [hiq.1, if_true, irq_handler_events, if_pos hiq.2]
          simp [List.mem_append]
        · right
          have hkeep : (if env.irq count then (a4091_irq_handler (env.hw count) save).1
              else save).ireg_istat = save.ireg_istat := by
            by_cases hi : env.irq count
            · rw [if_pos hi]
              unfold a4091_irq_handler
              rw [if_neg (fun hq => hiq ⟨hi, hq⟩)]
            · rw [if_neg hi]
          rw [hkeep] at h2
          exact h2
      · by_cases h3 : count &&& 31 = 0 ∧ env.tmo count = true
        · exfalso
          simp only [script_loop, if_neg h1, if_neg h2, if_pos h3] at h
          exact absurd h (by simp)
        · simp only [script_loop, if_neg h1, if_neg h2, if_neg h3] at h ⊢
          rcases ih (count + 1) _ h with hm | hir
          · left
            obtain ⟨v, hv⟩ := hm
            exact ⟨v, by simp [List.mem_append, hv]⟩
          · exact absurd hir h2

theorem script_loop_diag (env : ScriptEnv) : ∀ fuel count save,
    (script_loop env fuel save count).1 = some 1 →
    Ev.diag ∈ (script_loop env fuel save count).2.2 ∧
    (∃ v, Ev.rd REG_ISTAT v ∈ (script_loop env fuel save count).2.2) ∧
    (∃ v, Ev.rd REG_DSTAT v ∈ (script_loop env fuel save count).2.2) ∧
    (∃ v, Ev.rd REG_SSTAT0 v ∈ (script_loop env fuel save count).2.2) ∧
    (∃ v, Ev.rd REG_SSTAT1 v ∈ (script_loop env fuel save count).2.2) ∧
    (∃ v, Ev.rd REG_SSTAT2 v ∈ (script_loop env fuel save count).2.2) := by
  intro fuel
  induction fuel with
  | zero =>
    intro count save h
    simp [script_loop] at h
  | succ fuel ih =>
    intro count save h
    by_cases h1 : count &&& 7 = 0 ∧ env.hw count REG_ISTAT &&& (REG_ISTAT_ABRT ||| REG_ISTAT_DIP) ≠ 0
    · exfalso
      simp only [script_loop, if_pos h1] at h
      exact absurd h (by simp)
    · by_cases h2 : (if env.irq count then (a4091_irq_handler (env.hw count) save).1
          else save).ireg_istat &&& (REG_ISTAT_ABRT ||| REG_ISTAT_DIP) ≠ 0
      · exfalso
        simp only [script_loop, if_neg h1, if_pos h2] at h
        exact absurd h (by simp)
      · by_cases h3 : count &&& 31 = 0 ∧ env.tmo count = true
        · simp only [script_loop, if_neg h1, if_neg h2, if_pos h3]
          refine ⟨by simp [List.mem_append], ⟨env.hw count REG_ISTAT, ?_⟩,
            ⟨env.hw count REG_DSTAT, ?_⟩, ⟨env.hw count REG_SSTAT0, ?_⟩,
            ⟨env.hw count REG_SSTAT1, ?_⟩, ⟨env.hw count REG_SSTAT2, ?_⟩⟩ <;>
            simp [List.mem_append]
        · simp only [script_loop, if_neg h1, if_neg h2, if_neg h3] at h ⊢
          obtain ⟨ha, ⟨v1, h4⟩, ⟨v2, h5⟩, ⟨v3, h6⟩, ⟨v4, h7⟩, ⟨v5, h8⟩⟩ :=
            ih (count + 1) _ h
          exact ⟨by simp [List.mem_append, ha],
            ⟨v1, by simp [List.mem_append, h4]⟩, ⟨v2, by simp [List.mem_append, h5]⟩,
            ⟨v3, by simp [List.mem_append, h6]⟩, ⟨v4, by simp [List.mem_append, h7]⟩,
            ⟨v5, by simp [List.mem_append, h8]⟩⟩

/-- C1: for every invocation of execute_script (over any hardware,
interrupt and timeout oracle, with any fuel bound on the loop), the
function returns 0 exactly when a completion indication (ABRT or DIP) is
observed, either in the captured snapshot byte checked every iteration
or by the direct ISTAT poll performed every 8 iterations, before the
30-tick deadline check (consulted every 32 iterations) fires; on success
DSTAT is drained (by the poll path or by the interrupt handler that
captured the completed snapshot); and when the deadline fires first the
function prints the diagnostic showing ISTAT/DSTAT/SSTAT0-2 and
returns 1. -/
theorem C1_execute_script_spec (env : ScriptEnv) (script : Nat)
    (save : a4091_save_t) (fuel : Nat) :
    ((execute_script env script save fuel).1 = some 0 ↔
      ∃ i < fuel, successAt env i ∧ ∀ j < i, ¬ exitAt env j) ∧
    ((execute_script env script save fuel).1 = some 1 ↔
      ∃ i < fuel, (timeoutAt env i ∧ ¬ successAt env i) ∧ ∀ j < i, ¬ exitAt env j) ∧
    ((execute_script env script save fuel).1 = some 0 →
      ∃ v, Ev.rd REG_DSTAT v ∈ (execute_script env script save fuel).2.2) ∧
    ((execute_script env script save fuel).1 = some 1 →
      Ev.diag ∈ (execute_script env script save fuel).2.2 ∧
      (∃ v, Ev.rd REG_ISTAT v ∈ (execute_script env script save fuel).2.2) ∧
      (∃ v, Ev.rd REG_DSTAT v ∈ (execute_script env script save fuel).2.2) ∧
      (∃ v, Ev.rd REG_SSTAT0 v ∈ (execute_script env script save fuel).2.2) ∧
      (∃ v, Ev.rd REG_SSTAT1 v ∈ (execute_script env script save fuel).2.2) ∧
      (∃ v, Ev.rd REG_SSTAT2 v ∈ (execute_script env script save fuel).2.2)) := by
  have hpre : (({ save with ireg_istat := 0 } : a4091_save_t)).ireg_istat =
      snapBefore env 0 := by simp [snapBefore]
  have hchar := script_loop_characterization env fuel 0 { save with ireg_istat := 0 } hpre
  refine ⟨?_, ?_, ?_, ?_⟩
  · rw [show (execute_script env script save fuel).1 =
        (script_loop env fuel { save with ireg_istat := 0 } 0).1 from rfl, hchar.1]
    constructor
    · rintro ⟨i, _, h2, h3, h4⟩
      exact ⟨i, by omega, h3, fun j hj => h4 j (by omega) hj⟩
    · rintro ⟨i, h2, h3, h4⟩
      exact ⟨i, by omega, by omega, h3, fun j _ hj => h4 j hj⟩
  · rw [show (execute_script env script save fuel).1 =
        (script_loop env fuel { save with ireg_istat := 0 } 0).1 from rfl, hchar.2]
    constructor
    · rintro ⟨i, _, h2, h3, h4⟩
      exact ⟨i, by omega, h3, fun j hj => h4 j (by omega) hj⟩
    · rintro ⟨i, h2, h3, h4⟩
      exact ⟨i, by omega, by omega, h3, fun j _ hj => h4 j hj⟩
  · intro h
    have hd := script_loop_drain env fuel 0 { save with ireg_istat := 0 } h
    rcases hd with ⟨v, hv⟩ | hir
    · exact ⟨v, by simp [execute_script, List.mem_cons, hv]⟩
    · exact absurd hir (by simp)
  · intro h
    have hd := script_loop_diag env fuel 0 { save with ireg_istat := 0 } h
    obtain ⟨ha, ⟨v1, h4⟩, ⟨v2, h5⟩, ⟨v3, h6⟩, ⟨v4, h7⟩, ⟨v5, h8⟩⟩ := hd
    exact ⟨by simp [execute_script, List.mem_cons, ha],
      ⟨v1, by simp [execute_script, List.mem_cons, h4]⟩,
      ⟨v2, by simp [execute_script, List.mem_cons, h5]⟩,
      ⟨v3, by simp [execute_script, List.mem_cons, h6]⟩,
      ⟨v4, by simp [execute_script, List.mem_cons, h7]⟩,
      ⟨v5, by simp [execute_script, List.mem_cons, h8]⟩⟩

/-- Environment used to witness C1: ISTAT reads as DIP set, no
interrupts, no timeouts. -/
def c1_witness_env : ScriptEnv :=
  ⟨fun _ r => if r = REG_ISTAT then 1 else 0, fun _ => false, fun _ => false⟩

/-- C1 witness: at the concrete oracle where ISTAT shows DIP on the
first poll, executing a script returns success, by the main theorem. -/
theorem C1_execute_script_spec_witness :
    (execute_script c1_witness_env 0 {} 1).1 = some 0 :=
  (C1_execute_script_spec c1_witness_env 0 {} 1).1.mpr
    ⟨0, by decide, by decide, fun j hj => absurd hj (by omega)⟩

/-! ## C5: the bit-flip landing-protection grid of test_dma_copy -/

def DMA_LEN_BIT : Nat := 12

/-- The DMA length used by test_dma_copy: BIT(DMA_LEN_BIT) = 4096. -/
def dma_len : Nat := 2 ^ DMA_LEN_BIT

def BF_FLAG_COPY : Nat := 0x01

/-- Oracle for the protection-grid build: allocAbs a tells whether
AllocAbs succeeds at absolute address a; fallbackBuf b1 b2 is the
address of the AllocMem fallback buffer for entry (b1, b2). -/
structure GridEnv where
  allocAbs : Nat → Bool
  fallbackBuf : Nat → Nat → Nat

/-- The protection address recorded for grid entry (bit1, bit2), from
test_dma_copy: dst XOR BIT(bit1), or dst XOR BIT(bit1) XOR BIT(bit2)
when the bits differ. -/
def bf_addr (dst bit1 bit2 : Nat) : Nat :=
  if bit1 = bit2 then dst ^^^ (1 <<< bit1)
  else dst ^^^ (1 <<< bit1) ^^^ (1 <<< bit2)

/-- The flags byte for grid entry (bit1, bit2): BF_FLAG_COPY is set
exactly when AllocAbs failed and a fallback buffer was allocated. -/
def bf_flags (env : GridEnv) (dst bit1 bit2 : Nat) : Nat :=
  if env.allocAbs (bf_addr dst bit1 bit2) then 0 else BF_FLAG_COPY

/-- The backing memory for grid entry (bit1, bit2): the reserved
absolute address itself, or the fallback buffer. -/
def bf_mem (env : GridEnv) (dst bit1 bit2 : Nat) : Nat :=
  if env.allocAbs (bf_addr dst bit1 bit2) then bf_addr dst bit1 bit2
  else env.fallbackBuf bit1 bit2

inductive GEv where
  | wipe (addr len : Nat)
  | copyFrom (src dstBuf len : Nat)
deriving DecidableEq

/-- The (bit1, bit2) pairs visited by the two nested loops of
test_dma_copy: bit1 from DMA_LEN_BIT to 31, bit2 from bit1 to 31. -/
def grid_pairs : List (Nat × Nat) :=
  (List.range 32).flatMap fun b1 =>
    (List.range 32).filterMap fun b2 =>
      if DMA_LEN_BIT ≤ b1 ∧ b1 ≤ b2 then some (b1, b2) else none

/-- The memory actions of the allocation loop: every entry whose
absolute address was reserved is wiped to zero. -/
def grid_setup_events (env : GridEnv) (dst : Nat) : List GEv :=
  grid_pairs.filterMap fun p =>
    if env.allocAbs (bf_addr dst p.1 p.2) then
      some (GEv.wipe (bf_addr dst p.1 p.2) dma_len)
    else none

/-- The memory actions of the pre-pass copy loop (run under Forbid):
every COPY entry has the current contents of its contended address
copied into its fallback buffer. -/
def grid_copy_events (env : GridEnv) (dst : Nat) : List GEv :=
  grid_pairs.filterMap fun p =>
    if bf_flags env dst p.1 p.2 &&& BF_FLAG_COPY ≠ 0 then
      some (GEv.copyFrom (bf_addr dst p.1 p.2) (bf_mem env dst p.1 p.2) dma_len)
    else none

theorem mem_grid_pairs (b1 b2 : Nat) :
    (b1, b2) ∈ grid_pairs ↔ DMA_LEN_BIT ≤ b1 ∧ b1 ≤ b2 ∧ b2 < 32 := by
  unfold grid_pairs
  simp only [List.mem_flatMap, List.mem_filterMap, List.mem_range]
  constructor
  · rintro ⟨x, hx, y, hy, hf⟩
    by_cases hc : DMA_LEN_BIT ≤ x ∧ x ≤ y
    · rw [if_pos hc] at hf
      simp only [Option.some.injEq, Prod.mk.injEq] at hf
      obtain ⟨rfl, rfl⟩ := hf
      exact ⟨hc.1, hc.2, hy⟩
    · rw [if_neg hc] at hf
      exact absurd hf (by simp)
  · rintro ⟨h1, h2, h3⟩
    exact ⟨b1, by omega, b2, by omega, by rw [if_pos ⟨h1, h2⟩]⟩

theorem xor_xor_cancel (a b : Nat) : a ^^^ b ^^^ b = a := by
  rw [Nat.xor_assoc, Nat.xor_self, Nat.xor_zero]

theorem eq_xor_of_xor_eq {a d m : Nat} (h : a ^^^ d = m) : a = d ^^^ m := by
  have : a ^^^ d ^^^ d = m ^^^ d := by rw [h]
  rw [xor_xor_cancel] at this
  rw [this, Nat.xor_comm]

theorem xor_of_eq_xor {a d m : Nat} (h : a = d ^^^ m) : a ^^^ d = m := by
  rw [h, Nat.xor_comm d m, xor_xor_cancel]

theorem one_shiftLeft_eq (b : Nat) : 1 <<< b = 2 ^ b := by
  rw [Nat.shiftLeft_eq, one_mul]

/-- C5: with dma_len = 4096, the protection grid of test_dma_copy covers
exactly the addresses differing from dst in one or two address bits in
the range DMA_LEN_BIT..31: every visited pair (bit1, bit2) with
12 <= bit1 <= bit2 <= 31 records dst XOR 2^bit1 (bit1 = bit2) or
dst XOR 2^bit1 XOR 2^bit2 (bit1 < bit2); an address is recorded by some
grid entry iff its XOR difference from dst is one such one- or two-bit
mask; and each entry is either reserved at its absolute address and
wiped to zero, or flagged as a COPY and backed by a fallback buffer into
which the current contents of the contended address are copied. -/
theorem C5_bitflip_grid (env : GridEnv) (dst : Nat) :
    (∀ b1 b2, DMA_LEN_BIT ≤ b1 → b1 ≤ b2 → b2 < 32 →
      (b1 = b2 → bf_addr dst b1 b2 = dst ^^^ 2 ^ b1) ∧
      (b1 ≠ b2 → bf_addr dst b1 b2 = dst ^^^ 2 ^ b1 ^^^ 2 ^ b2)) ∧
    (∀ a, (∃ p ∈ grid_pairs, bf_addr dst p.1 p.2 = a) ↔
      ((∃ b, DMA_LEN_BIT ≤ b ∧ b < 32 ∧ a ^^^ dst = 2 ^ b) ∨
       (∃ b1 b2, DMA_LEN_BIT ≤ b1 ∧ b1 < b2 ∧ b2 < 32 ∧
         a ^^^ dst = 2 ^ b1 ^^^ 2 ^ b2))) ∧
    (∀ b1 b2, DMA_LEN_BIT ≤ b1 → b1 ≤ b2 → b2 < 32 →
      (env.allocAbs (bf_addr dst b1 b2) = true →
        bf_flags env dst b1 b2 = 0 ∧
        bf_mem env dst b1 b2 = bf_addr dst b1 b2 ∧
        GEv.wipe (bf_addr dst b1 b2) dma_len ∈ grid_setup_events env dst) ∧
      (env.allocAbs (bf_addr dst b1 b2) = false →
        bf_flags env dst b1 b2 &&& BF_FLAG_COPY ≠ 0 ∧
        bf_mem env dst b1 b2 = env.fallbackBuf b1 b2 ∧
        GEv.copyFrom (bf_addr dst b1 b2) (env.fallbackBuf b1 b2) dma_len ∈
          grid_copy_events env dst)) := by
  refine ⟨?_, ?_, ?_⟩
  · intro b1 b2 _ _ _
    constructor
    · intro he
      rw [bf_addr, if_pos he, one_shiftLeft_eq]
    · intro hne
      rw [bf_addr, if_neg hne, one_shiftLeft_eq, one_shiftLeft_eq]
  · intro a
    constructor
    · rintro ⟨⟨b1, b2⟩, hp, ha⟩
      rw [mem_grid_pairs] at hp
      by_cases he : b1 = b2
      · left
        refine ⟨b1, hp.1, by omega, ?_⟩
        rw [← ha]
        show bf_addr dst b1 b2 ^^^ dst = 2 ^ b1
        rw [bf_addr, if_pos he, one_shiftLeft_eq]
        exact xor_of_eq_xor rfl
      · right
        refine ⟨b1, b2, hp.1, by omega, hp.2.2, ?_⟩
        rw [← ha]
        show bf_addr dst b1 b2 ^^^ dst = 2 ^ b1 ^^^ 2 ^ b2
        rw [bf_addr, if_neg he, one_shiftLeft_eq, one_shiftLeft_eq]
        apply Nat.eq_of_testBit_eq
        intro j
        simp only [Nat.testBit_xor]
        cases dst.testBit j <;> cases (2 ^ b1).testBit j <;>
          cases (2 ^ b2).testBit j <;> rfl
    · rintro (⟨b, hb1, hb2, hm⟩ | ⟨b1, b2, hb1, hb2, hb3, hm⟩)
      · refine ⟨(b, b), (mem_grid_pairs b b).mpr ⟨hb1, Nat.le_refl _, hb2⟩, ?_⟩
        rw [bf_addr, if_pos rfl, one_shiftLeft_eq]
        exact (eq_xor_of_xor_eq hm).symm
      · refine ⟨(b1, b2), (mem_grid_pairs b1 b2).mpr ⟨hb1, by omega, hb3⟩, ?_⟩
        rw [bf_addr, if_neg (by omega), one_shiftLeft_eq, one_shiftLeft_eq,
          Nat.xor_assoc]
        exact (eq_xor_of_xor_eq hm).symm
  · intro b1 b2 h1 h2 h3
    constructor
    · intro halloc
      refine ⟨by rw [bf_flags, if_pos halloc], by rw [bf_mem, if_pos halloc], ?_⟩
      unfold grid_setup_events
      rw [List.mem_filterMap]
      exact ⟨(b1, b2), (mem_grid_pairs b1 b2).mpr ⟨h1, h2, h3⟩,
        by rw [if_pos halloc]⟩
    · intro halloc
      have hflag : bf_flags env dst b1 b2 &&& BF_FLAG_COPY ≠ 0 := by
        rw [bf_flags, halloc]
        decide
      refine ⟨hflag, by rw [bf_mem, halloc]; simp, ?_⟩
      unfold grid_copy_events
      rw [List.mem_filterMap]
      refine ⟨(b1, b2), (mem_grid_pairs b1 b2).mpr ⟨h1, h2, h3⟩, ?_⟩
      rw [if_pos hflag, bf_mem, halloc]
      simp

/-- C5 witness: the grid facts applied at the concrete oracle where no
absolute reservation succeeds, dst = 0x100000 and entry (12, 13). -/
theorem C5_bitflip_grid_witness :
    bf_addr 0x100000 12 13 = 0x100000 ^^^ 2 ^ 12 ^^^ 2 ^ 13 ∧
    bf_flags ⟨fun _ => false, fun _ _ => 0x900000⟩ 0x100000 12 13 &&& BF_FLAG_COPY ≠ 0 ∧
    GEv.copyFrom (bf_addr 0x100000 12 13) 0x900000 dma_len ∈
      grid_copy_events ⟨fun _ => false, fun _ _ => 0x900000⟩ 0x100000 :=
  ⟨((C5_bitflip_grid ⟨fun _ => false, fun _ _ => 0x900000⟩ 0x100000).1 12 13
      (by decide) (by decide) (by decide)).2 (by decide),
   (((C5_bitflip_grid ⟨fun _ => false, fun _ _ => 0x900000⟩ 0x100000).2.2 12 13
      (by decide) (by decide) (by decide)).2 rfl).1,
   (((C5_bitflip_grid ⟨fun _ => false, fun _ _ => 0x900000⟩ 0x100000).2.2 12 13
      (by decide) (by decide) (by decide)).2 rfl).2.2⟩

/-! ## C10: the -P listing path of main with no cards present -/

/-- One autoconfig device as seen by the listing loop. -/
structure ConfigDev where
  boardAddr : Nat
  boardSize : Nat
deriving DecidableEq

/-- One line of console output from the listing path.  The msg
constructor carries the exact printed text; card rows and the header
carry their data (their numeric formatting is out of scope). -/
inductive OutLine where
  | header
  | cardLine (index addr size : Nat)
  | notDetected (addr : Nat)
  | msg (s : String)
deriving DecidableEq

/-- The FindConfigDev walk of a4091_list from a4091.c: count and
did_header thread through; a card is shown unless the addr selector
filters it out.  Returns final count, did_header, and the output. -/
def a4091_list_loop (addr : Nat) : List ConfigDev → Nat → Bool →
    Nat × Bool × List OutLine
  | [], count, didHeader => (count, didHeader, [])
  | c :: rest, count, didHeader =>
    if (addr > 0x10 ∧ c.boardAddr ≠ addr) ∨ (addr ≤ 0x10 ∧ count ≠ addr) then
      a4091_list_loop addr rest (count + 1) didHeader
    else
      let hdr : List OutLine := if didHeader then [] else [.header]
      let r := a4091_list_loop addr rest (count + 1) true
      (r.1, r.2.1, hdr ++ [.cardLine count c.boardAddr c.boardSize] ++ r.2.2)

/-- Embedding of a4091_list from a4091.c (assuming the expansion library
opens): walk the config devices, then print the no-cards or
card-not-detected message as appropriate, and return count == 0. -/
def a4091_list (cards : List ConfigDev) (addr : Nat) : Nat × List OutLine :=
  let r := a4091_list_loop addr cards 0 false
  let tail : List OutLine :=
    if r.1 = 0 then [.msg "No A4091 cards detected"]
    else if r.2.1 = false then [.notDetected addr] else []
  ((if r.1 = 0 then 1 else 0), r.2.2 ++ tail)

/-- The -P-only path of main from a4091.c: with flag_list set and no
other action flag, rc accumulates a4091_list (addr defaults to 0) and
main exits with rc before any card lookup.  Returns (exit code,
output). -/
def main_P_only (cards : List ConfigDev) : Nat × List OutLine :=
  let r := a4091_list cards 0
  (r.1, r.2)

/-- C10 counterexample: invoked with only -P and no cards present, the
program does print the message but exits with code 1, not 0, because
a4091_list returns (count == 0) and main exits with that accumulated
return code. -/
theorem C10_counterexample :
    (main_P_only []).1 ≠ 0 ∧
    OutLine.msg "No A4091 cards detected" ∈ (main_P_only []).2 := by
  constructor
  · decide
  · simp [main_P_only, a4091_list, a4091_list_loop]

/-- C10 amended: with only -P and no A4091 cards present, the program
prints exactly the line with text "No A4091 cards detected" and exits
with code 1. -/
theorem C10_list_no_cards :
    main_P_only [] = (1, [OutLine.msg "No A4091 cards detected"]) := by
  simp [main_P_only, a4091_list, a4091_list_loop]

end A4091
